import Mathlib

/-!
Verification of the spreadsheet-analytics web application against its
natural-language specification.  The definitions below are a shallow
embedding of the repository's code: the SQL migration
(`supabase/migrations/20250702171143-….sql`, which also carries the
`ExcelDataViewer` component), the `FileUpload`, `ChartGenerator`,
`AnalyticsCharts` and `FileList` components, and `Dashboard.tsx`.
JavaScript values are modelled by `JSValue` (numbers as exact decimals
extended with the signed infinities, plus an explicit NaN constructor),
JavaScript objects by ordered association lists with assignment
semantics (`objSet`), and the managed backend's observable behaviour by
explicit event traces and state-transition functions.
-/

/-- A finite JavaScript number, carried as an exact unreduced decimal
`num / den` with `den` a positive power of ten.  The embedded code never
adds, multiplies, or compares two independently computed numbers, so the
representation is never normalised; zero-ness (`num = 0`) is the only
semantic question the code asks of a finite number. -/
structure JsDec where
  num : ℤ
  den : ℕ
deriving DecidableEq, Repr

/-- Scale a decimal by `10 ^ e` (the exponent part of a numeric
literal). -/
def JsDec.applyExp (d : JsDec) (e : ℤ) : JsDec :=
  if 0 ≤ e then ⟨d.num * 10 ^ e.toNat, d.den⟩ else ⟨d.num, d.den * 10 ^ (-e).toNat⟩

/-- A JavaScript number that `parseFloat` / `Number` can yield: a finite
decimal or one of the signed infinities (`parseFloat("Infinity")` is
`Infinity`).  NaN is not a `JsNum`: it is represented by `none` at the
coercion level and by `JSValue.vNaN` at the value level. -/
inductive JsNum where
  | finite (d : JsDec)
  | posInf
  | negInf
deriving DecidableEq, Repr

/-- The JavaScript number `0`. -/
def JsNum.zero : JsNum := .finite ⟨0, 1⟩

/-- An integral JavaScript number. -/
def JsNum.ofInt (i : ℤ) : JsNum := .finite ⟨i, 1⟩

/-- A JavaScript value as it occurs in the parsed spreadsheet data:
strings, finite numbers, NaN, booleans, and undefined (missing cells). -/
inductive JSValue where
  | vStr (s : String)
  | vNum (n : JsNum)
  | vNaN
  | vBool (b : Bool)
  | vUndefined
deriving DecidableEq, Repr

/-- JavaScript truthiness: `""`, `0`, `NaN`, `false` and `undefined`
are falsy, everything else is truthy. -/
def jsTruthy : JSValue → Bool
  | .vStr s => s != ""
  | .vNum (.finite d) => d.num != 0
  | .vNum .posInf => true
  | .vNum .negInf => true
  | .vNaN => false
  | .vBool b => b
  | .vUndefined => false

/-- Whitespace characters recognised by `String.prototype.trim`. -/
def isWs (c : Char) : Bool :=
  c == ' ' || c == '\t' || c == '\n' || c == '\r'

/-- `String.prototype.trim`: strip whitespace from both ends. -/
def jsTrim (s : String) : String :=
  String.mk (((s.data.dropWhile isWs).reverse.dropWhile isWs).reverse)

/-- Decimal representation of a natural number, written with explicit
fuel so that it reduces inside the kernel. -/
def natDecimalAux : ℕ → ℕ → List Char
  | 0, _ => []
  | fuel + 1, n =>
    if n < 10 then [Char.ofNat (48 + n)]
    else natDecimalAux fuel (n / 10) ++ [Char.ofNat (48 + n % 10)]

/-- Decimal representation of a natural number. -/
def natDecimal (n : ℕ) : String := String.mk (natDecimalAux (n + 1) n)

/-- Decimal representation of an integer. -/
def intDecimal (i : ℤ) : String :=
  if i < 0 then String.mk ('-' :: (natDecimal i.natAbs).data) else natDecimal i.natAbs

/-- `Number.prototype.toString`, modelled as far as the claims need it:
integral numbers print as decimal integers; non-integral finite numbers
print numerator and denominator; the infinities print as in JavaScript.
The claims depend only on the printed string being non-blank. -/
def jsNumToString : JsNum → String
  | .finite d =>
    if d.den = 1 then intDecimal d.num
    else intDecimal d.num ++ "/" ++ natDecimal d.den
  | .posInf => "Infinity"
  | .negInf => "-Infinity"

/-- JavaScript `toString` coercion of a value. -/
def jsToString : JSValue → String
  | .vStr s => s
  | .vNum n => jsNumToString n
  | .vNaN => "NaN"
  | .vBool b => if b then "true" else "false"
  | .vUndefined => "undefined"

/-- `a || b`: the left operand if truthy, otherwise the right operand. -/
def jsOr (v dflt : JSValue) : JSValue := if jsTruthy v then v else dflt

/-- Array indexing `row[i]`: `undefined` beyond the end of the array. -/
def jsIndex (row : List JSValue) (i : ℕ) : JSValue := row.getD i .vUndefined

/-!  ### Row-level-security policies of the migration (claim C1)

The migration enables RLS on the three relational tables and declares one
policy per command.  A policy's USING / WITH CHECK predicate only ever
refers to `auth.uid()` and the row's `user_id`, so it is embedded as a
small predicate language evaluated on those two values. -/

/-- The SQL command a policy applies to. -/
inductive RlsCmd where
  | select | insert | update | delete
deriving DecidableEq, Repr

/-- The predicate of a policy: `USING (true)` or
`USING/WITH CHECK (auth.uid() = user_id)`. -/
inductive RlsPred where
  | always
  | authUidEqUserId
deriving DecidableEq, Repr

/-- Evaluate a policy predicate for a caller uid and a row's user_id. -/
def RlsPred.eval : RlsPred → String → String → Bool
  | .always, _, _ => true
  | .authUidEqUserId, uid, rowUserId => uid == rowUserId

/-- One row-level-security policy of the migration. -/
structure RlsPolicy where
  table : String
  polName : String
  cmd : RlsCmd
  pred : RlsPred
deriving DecidableEq, Repr

/-- All policies the migration declares on the three relational tables
`profiles`, `excel_files` and `analytics_data` (the storage-bucket
policies on `storage.objects` are separate and not part of claim C1). -/
def migrationTablePolicies : List RlsPolicy :=
  [ ⟨"profiles", "Users can view all profiles", .select, .always⟩,
    ⟨"profiles", "Users can update their own profile", .update, .authUidEqUserId⟩,
    ⟨"profiles", "Users can insert their own profile", .insert, .authUidEqUserId⟩,
    ⟨"excel_files", "Users can view their own files", .select, .authUidEqUserId⟩,
    ⟨"excel_files", "Users can upload their own files", .insert, .authUidEqUserId⟩,
    ⟨"excel_files", "Users can update their own files", .update, .authUidEqUserId⟩,
    ⟨"excel_files", "Users can delete their own files", .delete, .authUidEqUserId⟩,
    ⟨"analytics_data", "Users can view their own analytics", .select, .authUidEqUserId⟩,
    ⟨"analytics_data", "Users can create their own analytics", .insert, .authUidEqUserId⟩ ]

/-- A policy is owner-scoped when it grants access only to the row's
owner: whenever the predicate evaluates to true, the caller's uid is the
row's `user_id`. -/
def ownerScoped (p : RlsPolicy) : Prop :=
  ∀ uid rowUserId : String, p.pred.eval uid rowUserId = true → uid = rowUserId

/-!  ### Numeric coercions: `parseFloat` and `Number` -/

/-- Consume a maximal run of leading decimal digits, returning their
values most significant first together with the remaining characters. -/
def takeDigits : List Char → List ℕ × List Char
  | [] => ([], [])
  | c :: cs =>
    if c.isDigit then
      let (ds, rest) := takeDigits cs
      ((c.toNat - 48) :: ds, rest)
    else ([], c :: cs)

/-- Integer value of a digit run (most significant first). -/
def intValOf (ds : List ℕ) : ℕ := ds.foldl (fun acc d => acc * 10 + d) 0

/-- Does the second character list start with the first? -/
def startsWithChars : List Char → List Char → Bool
  | [], _ => true
  | _ :: _, [] => false
  | p :: ps, c :: cs => p == c && startsWithChars ps cs

/-- The literal `Infinity` recognised by `parseFloat` and `Number`. -/
def infinityChars : List Char := "Infinity".data

/-- The optional exponent part of a numeric literal: `e`/`E`, an
optional sign and at least one digit.  Returns the exponent and the
unconsumed characters; consumes nothing when no well-formed exponent
follows. -/
def parseExponent (cs : List Char) : ℤ × List Char :=
  match cs with
  | c :: rest =>
    if c == 'e' || c == 'E' then
      match rest with
      | s :: rest2 =>
        if s == '-' then
          let (ds, rest3) := takeDigits rest2
          if ds.isEmpty then (0, cs) else (-(intValOf ds : ℤ), rest3)
        else if s == '+' then
          let (ds, rest3) := takeDigits rest2
          if ds.isEmpty then (0, cs) else ((intValOf ds : ℤ), rest3)
        else
          let (ds, rest3) := takeDigits rest
          if ds.isEmpty then (0, cs) else ((intValOf ds : ℤ), rest3)
      | [] => (0, cs)
    else (0, cs)
  | [] => (0, cs)

/-- Core numeric-literal parser shared by `parseFloat` and `Number`:
skip leading whitespace, an optional sign, then either the literal
`Infinity` or decimal digits with an optional fractional part and an
optional exponent.  Returns the parsed number and the unconsumed
characters, or `none` when neither `Infinity` nor any digit is
present. -/
def parseDecimal (s : String) : Option (JsNum × List Char) :=
  let cs0 := s.data.dropWhile isWs
  let signedTail : ℤ × List Char :=
    match cs0 with
    | '-' :: rest => (-1, rest)
    | '+' :: rest => (1, rest)
    | _ => (1, cs0)
  if startsWithChars infinityChars signedTail.2 then
    some (if signedTail.1 < 0 then .negInf else .posInf,
          signedTail.2.drop infinityChars.length)
  else
    let (ip, cs1) := takeDigits signedTail.2
    let dotted : List ℕ × List Char :=
      match cs1 with
      | '.' :: rest => takeDigits rest
      | _ => ([], cs1)
    let fp := dotted.1
    if ip.isEmpty && fp.isEmpty then none
    else
      let mantissa : JsDec :=
        ⟨signedTail.1 * (intValOf ip * 10 ^ fp.length + intValOf fp), 10 ^ fp.length⟩
      let expRes := parseExponent dotted.2
      some (.finite (mantissa.applyExp expRes.1), expRes.2)

/-- `parseFloat` applied to a value (via its string coercion): the value
of the longest numeric front of the string, NaN (`none`) when the string
does not start with a number.  Booleans, `undefined` and `NaN` stringify
to non-numeric text and give NaN. -/
def jsParseFloat : JSValue → Option JsNum
  | .vNum n => some n
  | .vStr s => (parseDecimal s).map (fun vr => vr.1)
  | _ => none

/-- `parseFloat(v) || 0`: the JavaScript fallback turns both `NaN` and
`0` into `0`, so the result is always a finite number. -/
def parseFloatOr0 (v : JSValue) : JsNum :=
  match jsParseFloat v with
  | none => JsNum.zero
  | some n => n

/-- `Number` coercion (used by `isNaN`): the whole string must be
numeric after trimming; an empty or all-whitespace string is `0`;
booleans convert to `0`/`1`; `undefined` and `NaN` stay NaN (`none`). -/
def jsToNumber : JSValue → Option JsNum
  | .vNum n => some n
  | .vBool b => some (if b then JsNum.ofInt 1 else JsNum.zero)
  | .vStr s =>
    if (s.data.dropWhile isWs).isEmpty then some JsNum.zero
    else match parseDecimal s with
      | none => none
      | some (n, rest) => if (rest.dropWhile isWs).isEmpty then some n else none
  | _ => none

/-- Global `isNaN`: coerce to a number and test for NaN. -/
def jsIsNaN (v : JSValue) : Bool := (jsToNumber v).isNone

/-!  ### JavaScript objects as ordered association lists -/

/-- A JavaScript object: insertion-ordered fields, unique keys as long
as it is built by `objSet`. -/
def JSObj : Type := List (String × JSValue)

instance : DecidableEq JSObj := fun a b => List.hasDecEq a b

instance : Repr JSObj := inferInstanceAs (Repr (List (String × JSValue)))

/-- Property assignment `o[k] = v`: overwrite the value at an existing
key in place, otherwise append the new key at the end. -/
def objSet : JSObj → String → JSValue → JSObj
  | [], k, v => [(k, v)]
  | kv :: rest, k, v =>
    if kv.1 == k then (k, v) :: rest else kv :: objSet rest k v

/-- Property access `o[k]`: `undefined` for a missing key. -/
def objGet (o : JSObj) (k : String) : JSValue :=
  match o.find? (fun kv => kv.1 == k) with
  | some kv => kv.2
  | none => .vUndefined

/-!  ### `parseExcelFile` (ExcelDataViewer)

`parseExcelFile` walks the workbook's sheets; for each sheet it takes the
`sheet_to_json(.., header: 1)` output — a list of rows, each a list of
raw cell values — skips sheets whose output is empty, takes the first row
as headers, and formats the remaining rows into objects keyed by the
header names, replacing falsy cells by the empty string. -/

/-- One formatted cell: `row[index] || ''`. -/
def formatCell (row : List JSValue) (i : ℕ) : JSValue :=
  jsOr (jsIndex row i) (.vStr "")

/-- The `headers.forEach((header, index) => obj[header] = row[index] || '')`
loop: fold the headers over property assignment, tracking the index. -/
def formatRowAux (row : List JSValue) : ℕ → List JSValue → JSObj → JSObj
  | _, [], obj => obj
  | i, h :: hs, obj =>
    formatRowAux row (i + 1) hs (objSet obj (jsToString h) (formatCell row i))

/-- Format one data row against the header row. -/
def formatRow (headers row : List JSValue) : JSObj :=
  formatRowAux row 0 headers []

/-- The header filter of `parseExcelFile`:
`headers.filter(h => h && h.toString().trim() !== '')` — the header must
be truthy AND its trimmed string form non-empty. -/
def codeColumnKeep (h : JSValue) : Bool :=
  jsTruthy h && jsTrim (jsToString h) != ""

/-- The column list the specification describes: headers whose trimmed
string form is non-empty (truthiness not required).  Used to compare the
spec's words against the code. -/
def specColumns (headers : List JSValue) : List JSValue :=
  headers.filter (fun h => jsTrim (jsToString h) != "")

/-- One parsed sheet as pushed into `sheetsData`. -/
structure SheetData where
  name : String
  data : List JSObj
  columns : List JSValue
deriving DecidableEq, Repr

/-- `parseExcelFile`: sheets in workbook order; a sheet whose
`sheet_to_json` output is empty is skipped; otherwise the first row is
the header row and the rest are formatted data rows. -/
def parseExcelFile : List (String × List (List JSValue)) → List SheetData
  | [] => []
  | sd :: rest =>
    match sd.2 with
    | [] => parseExcelFile rest
    | headers :: rows =>
      { name := sd.1,
        data := rows.map (formatRow headers),
        columns := headers.filter codeColumnKeep } :: parseExcelFile rest

/-!  ### `saveAnalyticsData` and the `analytics_data` table (claims C2, C5)

`saveAnalyticsData` sends one `upsert` per sheet with payload
`{user_id, file_id, sheet_name, data: {columns, rowCount, sampleData}}`.
The `analytics_data` table's only uniqueness constraint is its primary
key `id UUID DEFAULT gen_random_uuid()`; a PostgREST upsert without an
`onConflict` option resolves conflicts on the primary key, and the
payload never carries an `id`, so the default generates a fresh one.
Fresh ids are modelled by a counter `nextId` that is larger than every
id already in the table. -/

/-- The JSON `data` column of an analytics row. -/
structure SheetSummary where
  columns : List JSValue
  rowCount : ℕ
  sampleData : List JSObj
deriving DecidableEq, Repr

/-- The summary `saveAnalyticsData` computes for one sheet: the sheet's
columns, its number of data rows, and the first 5 rows as sample. -/
def sheetSummary (s : SheetData) : SheetSummary :=
  { columns := s.columns, rowCount := s.data.length, sampleData := s.data.take 5 }

/-- A stored `analytics_data` row. -/
structure AnalyticsRow where
  id : ℕ
  user_id : String
  file_id : String
  sheet_name : String
  data : SheetSummary
deriving DecidableEq, Repr

/-- An upsert payload (no `id`: `saveAnalyticsData` never supplies one). -/
structure AnalyticsPayload where
  user_id : String
  file_id : String
  sheet_name : String
  data : SheetSummary
deriving DecidableEq, Repr

/-- The `analytics_data` table: its rows plus the id generator. -/
structure AnalyticsTable where
  rows : List AnalyticsRow
  nextId : ℕ
deriving DecidableEq, Repr

/-- The freshly provisioned table. -/
def emptyAnalyticsTable : AnalyticsTable := ⟨[], 0⟩

/-- One PostgREST `upsert` on `analytics_data`: the conflict target is
the primary key `id`; the payload has no `id`, so the column default
assigns `nextId`.  If (impossibly, given freshness) a row with that id
existed it would be updated; otherwise the row is inserted. -/
def upsertAnalytics (t : AnalyticsTable) (p : AnalyticsPayload) : AnalyticsTable :=
  let newId := t.nextId
  if t.rows.any (fun r => r.id == newId) then
    { rows := t.rows.map (fun r =>
        if r.id == newId then
          { r with user_id := p.user_id, file_id := p.file_id,
                   sheet_name := p.sheet_name, data := p.data }
        else r),
      nextId := t.nextId + 1 }
  else
    { rows := t.rows ++ [⟨newId, p.user_id, p.file_id, p.sheet_name, p.data⟩],
      nextId := t.nextId + 1 }

/-- One `saveAnalyticsData` call: one upsert per parsed sheet (the
requests are concurrent in the browser; their table effect is modelled
in sheet order). -/
def runSave (t : AnalyticsTable) (uid fid : String) (sheets : List SheetData) :
    AnalyticsTable :=
  sheets.foldl (fun acc s => upsertAnalytics acc ⟨uid, fid, s.name, sheetSummary s⟩) t

/-- Ids already stored are always below the generator — the freshness
invariant of `gen_random_uuid`. -/
def tableInv (t : AnalyticsTable) : Prop :=
  ∀ r ∈ t.rows, r.id < t.nextId

/-- What claim C5 says each persisted analytics row must contain, for a
sheet of the workbook (skipping empty sheets). -/
def describeSheet (sd : String × List (List JSValue)) :
    Option (String × SheetSummary) :=
  match sd.2 with
  | [] => none
  | headers :: rows =>
    some (sd.1,
      { columns := headers.filter codeColumnKeep,
        rowCount := rows.length,
        sampleData := (rows.map (formatRow headers)).take (min 5 rows.length) })

/-!  ### Backend-call traces (claims C3, C4, C6, C10)

Each UI handler is modelled by the sequence of observable events it
produces: backend requests being issued and completing (successfully or
not), toasts shown to the user, console errors, and parse failures.
Failure outcomes are injected as boolean parameters, one per awaited
call, mirroring the `try`/`catch` control flow of the handlers. -/

/-- The backend requests the application issues. -/
inductive BackendCall where
  | storageUpload
  | storageDownload
  | storageRemove
  | dbInsertFile
  | dbSelectFiles
  | dbDeleteFile
  | dbUpsertAnalytics (sheet : String)
deriving DecidableEq, Repr

/-- A toast notification; the description carries the backend's error
message and is not modelled. -/
structure Toast where
  title : String
  destructive : Bool
deriving DecidableEq, Repr

/-- An observable event of a UI handler. -/
inductive Ev where
  | issue (c : BackendCall)
  | complete (c : BackendCall) (ok : Bool)
  | toastEv (t : Toast)
  | consoleErrorEv
  | parseFailEv
deriving DecidableEq, Repr

/-- `FileUpload.onDrop` (src/unnamed/part_000): validate the MIME type,
upload to storage, insert the metadata row, toasting on failure of
either step and on success. -/
def onDropEvents (hasUser typeValid uploadOk dbOk : Bool) : List Ev :=
  if !hasUser then []
  else if !typeValid then [.toastEv ⟨"Invalid file type", true⟩]
  else
    [.issue .storageUpload, .complete .storageUpload uploadOk] ++
    (if !uploadOk then [.toastEv ⟨"Upload failed", true⟩]
     else
       [.issue .dbInsertFile, .complete .dbInsertFile dbOk] ++
       (if !dbOk then [.toastEv ⟨"Upload failed", true⟩]
        else [.toastEv ⟨"Success", false⟩]))

/-- `FileList.handleDelete`: remove the storage object, then delete the
metadata row; a failed step throws into the catch, which toasts. -/
def handleDeleteEvents (hasUser storageOk dbOk : Bool) : List Ev :=
  if !hasUser then []
  else
    [.issue .storageRemove, .complete .storageRemove storageOk] ++
    (if !storageOk then [.toastEv ⟨"Delete failed", true⟩]
     else
       [.issue .dbDeleteFile, .complete .dbDeleteFile dbOk] ++
       (if !dbOk then [.toastEv ⟨"Delete failed", true⟩]
        else [.toastEv ⟨"Success", false⟩]))

/-- `FileList.handleDownload`: download the object, toasting either way. -/
def handleDownloadEvents (ok : Bool) : List Ev :=
  [.issue .storageDownload, .complete .storageDownload ok] ++
  (if ok then [.toastEv ⟨"Success", false⟩] else [.toastEv ⟨"Download failed", true⟩])

/-- `Dashboard.fetchFiles`: select the caller's files, toasting on error. -/
def fetchFilesEvents (hasUser ok : Bool) : List Ev :=
  if !hasUser then []
  else
    [.issue .dbSelectFiles, .complete .dbSelectFiles ok] ++
    (if ok then [] else [.toastEv ⟨"Error", true⟩])

/-- `ExcelDataViewer.saveAnalyticsData`: build ONE upsert promise per
sheet via `sheetsData.map(...)` — all requests are issued before any is
awaited — then `await Promise.all(promises)`.  A rejection is caught and
written to `console.error` only; no toast is shown. -/
def saveAnalyticsDataEvents (hasUser : Bool) (sheets : List String) (allOk : Bool) :
    List Ev :=
  if !hasUser then []
  else
    (sheets.map (fun s => Ev.issue (.dbUpsertAnalytics s))) ++
    (sheets.map (fun s => Ev.complete (.dbUpsertAnalytics s) allOk)) ++
    (if !allOk && !sheets.isEmpty then [Ev.consoleErrorEv] else [])

/-- `ExcelDataViewer.loadFileData`: download the file, toasting on
error; on success parse it (toasting on a parse failure) and kick off
`saveAnalyticsData` for the parsed sheets. -/
def loadFileDataEvents (hasUser downloadOk parseOk : Bool) (sheets : List String)
    (saveOk : Bool) : List Ev :=
  if !hasUser then []
  else
    [.issue .storageDownload, .complete .storageDownload downloadOk] ++
    (if !downloadOk then [.toastEv ⟨"Error", true⟩]
     else if !parseOk then [.parseFailEv, .toastEv ⟨"Error", true⟩]
     else saveAnalyticsDataEvents true sheets saveOk)

/-- Is an event the issuing of a backend request? -/
def isIssueEv : Ev → Bool
  | .issue _ => true
  | _ => false

/-- Number of backend requests a trace issues. -/
def countIssued (tr : List Ev) : ℕ := (tr.filter isIssueEv).length

/-- Number of issues of one specific call in a trace. -/
def countIssueOf (c : BackendCall) (tr : List Ev) : ℕ :=
  (tr.filter (fun e => e == Ev.issue c)).length

/-- Running in-flight counter: `cur` requests issued but not completed,
`best` the maximum reached so far. -/
def maxInFlightAux (cur best : ℕ) : List Ev → ℕ
  | [] => best
  | (.issue _) :: es => maxInFlightAux (cur + 1) (max best (cur + 1)) es
  | (.complete _ _) :: es => maxInFlightAux (cur - 1) best es
  | _ :: es => maxInFlightAux cur best es

/-- The largest number of backend requests simultaneously in flight
during a trace. -/
def maxInFlight (tr : List Ev) : ℕ := maxInFlightAux 0 0 tr

/-- A failure event: a backend call completing unsuccessfully, or a
parse failure. -/
def isFailEv : Ev → Bool
  | .complete _ ok => !ok
  | .parseFailEv => true
  | _ => false

/-- A user-visible error notification. -/
def isDestructiveToastEv : Ev → Bool
  | .toastEv t => t.destructive
  | _ => false

/-- Any toast at all. -/
def isToastEv : Ev → Bool
  | .toastEv _ => true
  | _ => false

/-- A trace surfaces its failures when it either has none or shows a
destructive toast. -/
def failuresSurfaced (tr : List Ev) : Bool :=
  !(tr.any isFailEv) || tr.any isDestructiveToastEv

/-- The issue of the metadata delete. -/
def isDeleteIssue : Ev → Bool
  | .issue .dbDeleteFile => true
  | _ => false

/-- A successful completion of the storage removal. -/
def isRemoveOkComplete : Ev → Bool
  | .complete .storageRemove true => true
  | _ => false

/-- Every issue of the metadata delete is preceded by a successful
completion of the storage removal. -/
def removedBeforeDeleteAux (seen : Bool) : List Ev → Bool
  | [] => true
  | e :: es =>
    if isDeleteIssue e then seen && removedBeforeDeleteAux seen es
    else removedBeforeDeleteAux (seen || isRemoveOkComplete e) es

/-- The storage object is removed strictly before the metadata delete is
issued, throughout the trace. -/
def removedBeforeDelete (tr : List Ev) : Bool := removedBeforeDeleteAux false tr

/-!  ### `handleDelete` state semantics (claim C10)

Beyond the event ordering, claim C10 speaks about the backend state, so
the storage bucket and the `excel_files` table are modelled explicitly
and `handleDelete` as a transition on them. -/

/-- An `excel_files` metadata row (the fields `handleDelete` touches). -/
structure FileRow where
  id : String
  user_id : String
  file_path : String
deriving DecidableEq, Repr

/-- The backend state `handleDelete` acts on: the set of storage object
paths and the metadata rows. -/
structure BackendState where
  storage : List String
  dbFiles : List FileRow
deriving DecidableEq, Repr

/-- `storage.from('excel-files').remove([path])`. -/
def removeStorage (st : BackendState) (path : String) : BackendState :=
  { st with storage := st.storage.filter (fun p => p != path) }

/-- `from('excel_files').delete().eq('id', fid).eq('user_id', uid)`. -/
def deleteFileRow (st : BackendState) (fid uid : String) : BackendState :=
  { st with dbFiles := st.dbFiles.filter (fun r => !(r.id == fid && r.user_id == uid)) }

/-- `handleDelete`'s effect on the backend: remove the storage object;
if that fails, throw before touching the table; otherwise delete the
metadata row (a failing delete leaves the table unchanged and nothing
restores the storage object). -/
def handleDeleteRun (st : BackendState) (uid : String) (f : FileRow)
    (storageOk dbOk : Bool) : BackendState :=
  if storageOk then
    let st1 := removeStorage st f.file_path
    if dbOk then deleteFileRow st1 f.id uid else st1
  else st

/-!  ### `ChartGenerator` (claims C7, C9) -/

/-- One element of `generateChartData`'s `data.map(...)`: the object
literal `{[xAxis]: row[xAxis], [yAxis]: parseFloat(row[yAxis]) || 0,
name: row[xAxis], value: parseFloat(row[yAxis]) || 0}`, written as four
property assignments in literal order so that duplicate computed keys
overwrite earlier ones exactly as in JavaScript. -/
def processRow (xA yA : String) (row : JSObj) : JSObj :=
  objSet
    (objSet
      (objSet
        (objSet [] xA (objGet row xA))
        yA (.vNum (parseFloatOr0 (objGet row yA))))
      "name" (objGet row xA))
    "value" (.vNum (parseFloatOr0 (objGet row yA)))

/-- The filter `item => item[xAxis] && !isNaN(item[yAxis])`. -/
def chartFilterPred (xA yA : String) (item : JSObj) : Bool :=
  jsTruthy (objGet item xA) && !(jsIsNaN (objGet item yA))

/-- `generateChartData`: map, filter, and keep at most 20 items. -/
def generateChartData (xA yA : String) (data : List JSObj) : List JSObj :=
  ((data.map (processRow xA yA)).filter (chartFilterPred xA yA)).take 20

/-- The JSON chart-configuration export `downloadChart` builds: exactly
the six fields of the `chartConfig` object literal. -/
structure ChartConfig where
  fileName : String
  chartType : String
  xAxis : String
  yAxis : String
  data : List JSObj
  generatedAt : String
deriving DecidableEq, Repr

/-- `downloadChart`'s `chartConfig` object from the component state. -/
def downloadChartConfig (fileName selectedChart xA yA : String)
    (chartData : List JSObj) (now : String) : ChartConfig :=
  { fileName := fileName, chartType := selectedChart, xAxis := xA, yAxis := yA,
    data := chartData, generatedAt := now }

/-!  ## Helper lemmas -/

theorem objGet_objSet_self (o : JSObj) (k : String) (v : JSValue) :
    objGet (objSet o k v) k = v := by
  induction o with
  | nil => simp [objSet, objGet, List.find?]
  | cons kv rest ih =>
    by_cases h : kv.1 == k
    · simp [objSet, h, objGet, List.find?]
    · simp only [objSet, h]
      simp only [objGet, List.find?, h] at ih ⊢
      simpa [h] using ih

theorem objGet_objSet_ne (o : JSObj) (k k2 : String) (v : JSValue) (h : k2 ≠ k) :
    objGet (objSet o k v) k2 = objGet o k2 := by
  have hbeq : (k == k2) = false := by
    simp only [beq_eq_false_iff_ne, ne_eq]
    exact fun he => h he.symm
  induction o with
  | nil => simp [objSet, objGet, List.find?, hbeq]
  | cons kv rest ih =>
    by_cases hk : kv.1 == k
    · have hk1 : kv.1 = k := by simpa using hk
      simp [objSet, hk, objGet, List.find?, hbeq, hk1]
    · simp only [objSet, hk]
      by_cases h2 : kv.1 == k2
      · simp [objGet, List.find?, h2]
      · simp only [objGet, List.find?, h2] at ih ⊢
        simpa [h2] using ih

theorem objGet_processRow_y (xA yA : String) (row : JSObj) (hy : yA ≠ "name") :
    objGet (processRow xA yA row) yA = .vNum (parseFloatOr0 (objGet row yA)) := by
  unfold processRow
  by_cases hv : yA = "value"
  · subst hv; exact objGet_objSet_self ..
  · rw [objGet_objSet_ne _ _ _ _ hv, objGet_objSet_ne _ _ _ _ hy, objGet_objSet_self]

theorem objGet_processRow_x (xA yA : String) (row : JSObj)
    (hx : xA ≠ "value") (hy : yA ≠ "name") :
    objGet (processRow xA yA row) xA =
      if xA = yA then .vNum (parseFloatOr0 (objGet row yA)) else objGet row xA := by
  unfold processRow
  rw [objGet_objSet_ne _ _ _ _ hx]
  by_cases hn : xA = "name"
  · subst hn
    rw [objGet_objSet_self]
    rw [if_neg (fun he => hy he.symm)]
  · rw [objGet_objSet_ne _ _ _ _ hn]
    by_cases hxy : xA = yA
    · subst hxy; rw [objGet_objSet_self, if_pos rfl]
    · rw [objGet_objSet_ne _ _ _ _ hxy, objGet_objSet_self, if_neg hxy]

theorem parseFloatOr0_of_falsy (v : JSValue) (h : jsTruthy v = false) :
    jsTruthy (JSValue.vNum (parseFloatOr0 v)) = false := by
  cases v with
  | vStr s =>
    have hs : s = "" := by simpa [jsTruthy] using h
    subst hs; decide
  | vNum x =>
    cases x with
    | finite d =>
      have hd : d.num = 0 := by simpa [jsTruthy] using h
      simp [parseFloatOr0, jsParseFloat, jsTruthy, hd]
    | posInf => simp [jsTruthy] at h
    | negInf => simp [jsTruthy] at h
  | vNaN => decide
  | vBool b =>
    have hb : b = false := by simpa [jsTruthy] using h
    subst hb; decide
  | vUndefined => decide

/-- The model's `parseFloat` reproduces the non-finite case of the real
one: the literal `Infinity` parses to the infinity, survives the
`|| 0` fallback, is truthy, and is not NaN — so a y cell "Infinity"
yields a chart point whose y value is `Infinity`, kept by the filter. -/
theorem parseFloat_infinity_facts :
    jsParseFloat (.vStr "Infinity") = some .posInf
    ∧ jsParseFloat (.vStr "-Infinity") = some .negInf
    ∧ parseFloatOr0 (.vStr "Infinity") = .posInf
    ∧ jsTruthy (.vNum .posInf) = true
    ∧ jsIsNaN (.vNum .posInf) = false
    ∧ generateChartData "x" "y" [[("x", .vStr "a"), ("y", .vStr "Infinity")]] =
        [[("x", .vStr "a"), ("y", .vNum .posInf), ("name", .vStr "a"),
          ("value", .vNum .posInf)]] := by
  refine ⟨by decide, by decide, by decide, by decide, by decide, by decide⟩

theorem maxAux_issues (ss : List String) (rest : List Ev) :
    ∀ cur best : ℕ, cur ≤ best →
    maxInFlightAux cur best
        ((ss.map (fun s => Ev.issue (.dbUpsertAnalytics s))) ++ rest) =
      maxInFlightAux (cur + ss.length) (max best (cur + ss.length)) rest := by
  induction ss with
  | nil =>
    intro cur best h
    simp [Nat.max_eq_left h]
  | cons s ss ih =>
    intro cur best h
    simp only [List.map_cons, List.cons_append, maxInFlightAux, List.length_cons,
      List.append_eq]
    rw [ih (cur + 1) (max best (cur + 1)) (Nat.le_max_right _ _)]
    have h2 : max (max best (cur + 1)) (cur + 1 + ss.length) =
        max best (cur + (ss.length + 1)) := by
      rw [Nat.max_assoc, Nat.max_eq_right (by omega : cur + 1 ≤ cur + 1 + ss.length)]
      congr 1
      omega
    rw [h2, show cur + 1 + ss.length = cur + (ss.length + 1) by omega]

theorem maxAux_completes (ss : List String) (ok : Bool) (rest : List Ev) :
    ∀ cur best : ℕ,
    maxInFlightAux cur best
        ((ss.map (fun s => Ev.complete (.dbUpsertAnalytics s) ok)) ++ rest) =
      maxInFlightAux (cur - ss.length) best rest := by
  induction ss with
  | nil => intro cur best; simp
  | cons s ss ih =>
    intro cur best
    simp only [List.map_cons, List.cons_append, maxInFlightAux, List.length_cons,
      List.append_eq]
    rw [ih (cur - 1) best, show cur - 1 - ss.length = cur - (ss.length + 1) by omega]

theorem maxAux_consoleTail (cur best : ℕ) (c : Bool) :
    maxInFlightAux cur best (if c then [Ev.consoleErrorEv] else []) = best := by
  cases c <;> rfl

theorem saveAnalytics_maxInFlight (sheets : List String) (allOk : Bool) :
    maxInFlight (saveAnalyticsDataEvents true sheets allOk) = sheets.length := by
  unfold maxInFlight saveAnalyticsDataEvents
  simp only [Bool.not_true, Bool.false_eq_true, if_false, List.append_assoc]
  rw [maxAux_issues sheets _ 0 0 (Nat.le_refl 0)]
  rw [maxAux_completes sheets allOk _ (0 + sheets.length) (max 0 (0 + sheets.length))]
  simp only [Nat.zero_add, Nat.sub_self]
  rw [maxAux_consoleTail]
  exact Nat.zero_max _

theorem any_map_false {α : Type} (l : List α) (f : α → Ev) (p : Ev → Bool)
    (h : ∀ a, p (f a) = false) : (l.map f).any p = false := by
  induction l with
  | nil => rfl
  | cons a as ih => simp [h, ih]

theorem formatCell_truthy_or_empty (row : List JSValue) (i : ℕ) :
    (jsTruthy (formatCell row i) || (formatCell row i == JSValue.vStr "")) = true := by
  unfold formatCell jsOr
  by_cases h : jsTruthy (jsIndex row i)
  · simp [h]
  · simp [h]

theorem objSet_all (P : JSValue → Bool) (o : JSObj) (k : String) (v : JSValue)
    (ho : (o.all (fun kv => P kv.2)) = true) (hv : P v = true) :
    ((objSet o k v).all (fun kv => P kv.2)) = true := by
  induction o with
  | nil => simpa [objSet] using hv
  | cons kv rest ih =>
    simp only [List.all_cons, Bool.and_eq_true] at ho
    by_cases h : kv.1 == k
    · simp [objSet, h, hv, ho.2]
    · simp [objSet, h, ho.1, ih ho.2]

theorem formatRowAux_all (row : List JSValue) (headers : List JSValue) :
    ∀ (i : ℕ) (obj : JSObj), (obj.all (fun kv =>
        jsTruthy kv.2 || (kv.2 == JSValue.vStr ""))) = true →
    ((formatRowAux row i headers obj).all (fun kv =>
        jsTruthy kv.2 || (kv.2 == JSValue.vStr ""))) = true := by
  induction headers with
  | nil => intro i obj h; simpa [formatRowAux] using h
  | cons hd hs ih =>
    intro i obj h
    exact ih (i + 1) _
      (objSet_all (fun v => jsTruthy v || (v == JSValue.vStr "")) obj
        (jsToString hd) (formatCell row i) h (formatCell_truthy_or_empty row i))

theorem formatRow_all (headers row : List JSValue) :
    ((formatRow headers row).all (fun kv =>
        jsTruthy kv.2 || (kv.2 == JSValue.vStr ""))) = true :=
  formatRowAux_all row headers 0 [] rfl

theorem parseExcelFile_names (wb : List (String × List (List JSValue))) :
    (parseExcelFile wb).map (fun s => s.name) =
      (wb.filter (fun sd => !sd.2.isEmpty)).map (fun sd => sd.1) := by
  induction wb with
  | nil => rfl
  | cons sd rest ih =>
    match h : sd.2 with
    | [] =>
      have : sd.2.isEmpty = true := by rw [h]; rfl
      simp [parseExcelFile, h, List.filter_cons, this, ih]
    | headers :: rows =>
      have : sd.2.isEmpty = false := by rw [h]; rfl
      simp [parseExcelFile, h, List.filter_cons, this, ih]

theorem upsert_append (t : AnalyticsTable) (p : AnalyticsPayload) (h : tableInv t) :
    upsertAnalytics t p =
      ⟨t.rows ++ [⟨t.nextId, p.user_id, p.file_id, p.sheet_name, p.data⟩],
       t.nextId + 1⟩ := by
  unfold upsertAnalytics
  have hany : (t.rows.any (fun r => r.id == t.nextId)) = false := by
    by_contra hc
    rw [Bool.not_eq_false, List.any_eq_true] at hc
    obtain ⟨r, hr, hid⟩ := hc
    have hlt := h r hr
    rw [beq_iff_eq] at hid
    omega
  simp [hany]

theorem tableInv_upsert (t : AnalyticsTable) (p : AnalyticsPayload) (h : tableInv t) :
    tableInv (upsertAnalytics t p) := by
  rw [upsert_append t p h]
  intro r hr
  dsimp only at hr ⊢
  simp only [List.mem_append, List.mem_singleton] at hr
  rcases hr with hr | hr
  · have := h r hr; omega
  · subst hr; dsimp only; omega

theorem runSave_rows (sheets : List SheetData) :
    ∀ (t : AnalyticsTable), tableInv t → ∀ uid fid : String,
    (runSave t uid fid sheets).rows.map (fun r => (r.sheet_name, r.data)) =
      t.rows.map (fun r => (r.sheet_name, r.data)) ++
        sheets.map (fun s => (s.name, sheetSummary s)) := by
  induction sheets with
  | nil => intro t h uid fid; simp [runSave]
  | cons s ss ih =>
    intro t h uid fid
    have step : runSave t uid fid (s :: ss) =
        runSave (upsertAnalytics t ⟨uid, fid, s.name, sheetSummary s⟩) uid fid ss := rfl
    rw [step, ih _ (tableInv_upsert t _ h), upsert_append t _ h]
    simp

theorem parseExcelFile_summaries (wb : List (String × List (List JSValue))) :
    (parseExcelFile wb).map (fun s => (s.name, sheetSummary s)) =
      wb.filterMap describeSheet := by
  induction wb with
  | nil => rfl
  | cons sd rest ih =>
    match h : sd.2 with
    | [] => simp [parseExcelFile, h, List.filterMap_cons, describeSheet, ih]
    | headers :: rows =>
      simp only [parseExcelFile, h, List.map_cons, List.filterMap_cons, describeSheet, ih]
      congr 2
      unfold sheetSummary
      simp only [List.length_map]
      congr 1
      rw [List.take_eq_take]
      simp only [List.length_map]
      omega

/-!  ## Claim theorems -/

/-- Claim C1, counterexample: not every policy of the three relational
tables is owner-scoped — the profiles SELECT policy `USING (true)`
("Users can view all profiles") lets caller "alice" read a row owned by
"bob". -/
theorem C1_counterexample : ¬ (∀ p ∈ migrationTablePolicies, ownerScoped p) := by
  intro h
  have h2 := h ⟨"profiles", "Users can view all profiles", .select, .always⟩
    (by decide) "alice" "bob" rfl
  exact absurd h2 (by decide)

/-- Claim C1, amended: every policy the migration declares on the three
relational tables grants access exactly when the caller's uid equals the
row's `user_id`, except the profiles SELECT policy, which grants access
to every caller. -/
theorem C1_amended : ∀ p ∈ migrationTablePolicies,
    (p.table = "profiles" ∧ p.cmd = RlsCmd.select ∧
      ∀ uid rowUserId : String, p.pred.eval uid rowUserId = true)
    ∨ (∀ uid rowUserId : String, p.pred.eval uid rowUserId = (uid == rowUserId)) := by
  intro p hp
  fin_cases hp
  · exact Or.inl ⟨rfl, rfl, fun _ _ => rfl⟩
  all_goals exact Or.inr (fun _ _ => rfl)

/-- Witness for C1: the amended theorem applied to the excel_files
DELETE policy at concrete uids. -/
theorem C1_witness :
    (⟨"excel_files", "Users can delete their own files", RlsCmd.delete,
        RlsPred.authUidEqUserId⟩ : RlsPolicy).pred.eval "alice" "bob" =
      ("alice" == "bob") := by
  rcases C1_amended ⟨"excel_files", "Users can delete their own files",
      RlsCmd.delete, RlsPred.authUidEqUserId⟩ (by decide) with h | h
  · exact absurd h.1 (by decide)
  · exact h "alice" "bob"

/-- Claim C2 (code bug): re-running `saveAnalyticsData` for the same
`(file_id, sheet_name)` does NOT replace the analytics row.  The upsert
has no `onConflict` target, so it resolves on the primary key `id`,
which the payload never carries; the id default always generates a fresh
key and the table has no unique constraint on `(file_id, sheet_name)`,
so a second identical call leaves two rows. -/
theorem C2_duplicate_rows (uid fid sname : String) :
    ((runSave (runSave emptyAnalyticsTable uid fid [⟨sname, [], []⟩]) uid fid
        [⟨sname, [], []⟩]).rows.filter
      (fun r => r.file_id == fid && r.sheet_name == sname)).length = 2 := by
  simp [runSave, emptyAnalyticsTable, upsertAnalytics, sheetSummary, List.filter]

/-- Claim C3, counterexample: with two parsed sheets,
`saveAnalyticsData` has two backend requests in flight at once (it
builds all upsert promises before awaiting `Promise.all`), so it is not
true that no two backend requests are ever concurrently in flight. -/
theorem C3_counterexample :
    ¬ (maxInFlight (saveAnalyticsDataEvents true ["Sheet1", "Sheet2"] true) ≤ 1) := by
  decide

/-- Claim C3, amended: the upload, delete, fetch and download handlers
await each backend call before issuing the next (never more than one in
flight), but `saveAnalyticsData` issues one upsert per sheet before
awaiting any, reaching exactly `sheets.length` concurrent requests. -/
theorem C3_amended :
    (∀ tv u d : Bool, maxInFlight (onDropEvents true tv u d) ≤ 1)
    ∧ (∀ s d : Bool, maxInFlight (handleDeleteEvents true s d) ≤ 1)
    ∧ (∀ o : Bool, maxInFlight (fetchFilesEvents true o) ≤ 1)
    ∧ (∀ o : Bool, maxInFlight (handleDownloadEvents o) ≤ 1)
    ∧ (∀ (sheets : List String) (allOk : Bool),
        maxInFlight (saveAnalyticsDataEvents true sheets allOk) = sheets.length) := by
  refine ⟨by decide, by decide, by decide, by decide, ?_⟩
  intro sheets allOk
  exact saveAnalytics_maxInFlight sheets allOk

/-- Claim C4, counterexample: a failing analytics upsert produces no
destructive toast — `saveAnalyticsData`'s catch only writes to
`console.error` — so not every backend failure is surfaced to the
user. -/
theorem C4_counterexample :
    failuresSurfaced (saveAnalyticsDataEvents true ["Sheet1"] false) = false := by
  decide

/-- Claim C4, amended: upload, delete, fetch, download, load and parse
failures are all caught and surfaced as destructive toasts, but a
failure of the analytics upsert in `saveAnalyticsData` is caught and
only logged to the console: its trace contains a failure event and a
console error yet no toast at all. -/
theorem C4_amended :
    (∀ tv u d : Bool, failuresSurfaced (onDropEvents true tv u d) = true)
    ∧ (∀ s d : Bool, failuresSurfaced (handleDeleteEvents true s d) = true)
    ∧ (∀ o : Bool, failuresSurfaced (fetchFilesEvents true o) = true)
    ∧ (∀ o : Bool, failuresSurfaced (handleDownloadEvents o) = true)
    ∧ (∀ dOk pOk : Bool, ∀ sheets : List String,
        failuresSurfaced (loadFileDataEvents true dOk pOk sheets true) = true)
    ∧ (∀ sheets : List String,
        ((saveAnalyticsDataEvents true sheets false).any isFailEv = !sheets.isEmpty)
        ∧ ((saveAnalyticsDataEvents true sheets false).any isToastEv = false)
        ∧ ((saveAnalyticsDataEvents true sheets false).any
            (fun e => e == Ev.consoleErrorEv) = !sheets.isEmpty)) := by
  refine ⟨by decide, by decide, by decide, by decide, ?_, ?_⟩
  · intro dOk pOk sheets
    have hIss : ((sheets.map (fun s => Ev.issue (.dbUpsertAnalytics s))).any isFailEv)
        = false := any_map_false _ _ _ (fun a => rfl)
    have hCom : ((sheets.map (fun s =>
        Ev.complete (.dbUpsertAnalytics s) true)).any isFailEv) = false :=
      any_map_false _ _ _ (fun a => rfl)
    cases dOk <;> cases pOk <;>
      simp [loadFileDataEvents, failuresSurfaced, saveAnalyticsDataEvents,
        List.any_append, isFailEv, isDestructiveToastEv, hIss, hCom]
  · intro sheets
    cases sheets with
    | nil => decide
    | cons s ss =>
      have hIss : (((s :: ss).map (fun s => Ev.issue (.dbUpsertAnalytics s))).any
          isFailEv) = false := any_map_false _ _ _ (fun a => rfl)
      have hIssT : (((s :: ss).map (fun s => Ev.issue (.dbUpsertAnalytics s))).any
          isToastEv) = false := any_map_false _ _ _ (fun a => rfl)
      have hComT : (((s :: ss).map (fun s =>
          Ev.complete (.dbUpsertAnalytics s) false)).any isToastEv) = false :=
        any_map_false _ _ _ (fun a => rfl)
      have hIssC : (((s :: ss).map (fun s => Ev.issue (.dbUpsertAnalytics s))).any
          (fun e => e == Ev.consoleErrorEv)) = false :=
        any_map_false _ _ _ (fun a => by simp)
      have hComC : (((s :: ss).map (fun s =>
          Ev.complete (.dbUpsertAnalytics s) false)).any
          (fun e => e == Ev.consoleErrorEv)) = false :=
        any_map_false _ _ _ (fun a => by simp)
      refine ⟨?_, ?_, ?_⟩
      · simp [saveAnalyticsDataEvents, List.any_append, hIss, isFailEv]
      · simp [saveAnalyticsDataEvents, List.any_append, hIssT, hComT, isToastEv]
      · simp [saveAnalyticsDataEvents, List.any_append, hIssC, hComC]

/-- Claim C5, counterexample: the claim's column description ("the
sheet's non-empty trimmed header names") fails for a header whose raw
value is the number 0: its trimmed string form "0" is non-empty, yet the
code's filter `h => h && h.toString().trim() !== ''` drops it because
`0` is falsy, so the persisted analytics row differs from the claimed
one. -/
theorem C5_counterexample :
    ¬ ((runSave emptyAnalyticsTable "u" "f"
          (parseExcelFile [("S", [[JSValue.vNum JsNum.zero]])])).rows.map
            (fun r => (r.sheet_name, r.data)) =
        [("S", ⟨specColumns [JSValue.vNum JsNum.zero], 0, []⟩)]) := by
  decide

/-- Claim C5, amended: for every workbook, the analytics rows persisted
by `saveAnalyticsData` for the non-empty sheets contain exactly the
header names that are truthy AND non-empty after trimming as columns,
the number of data rows after the header row as rowCount, and the first
min(5, rowCount) formatted data rows as sampleData. -/
theorem C5_amended (wb : List (String × List (List JSValue))) (uid fid : String) :
    (runSave emptyAnalyticsTable uid fid (parseExcelFile wb)).rows.map
        (fun r => (r.sheet_name, r.data)) = wb.filterMap describeSheet := by
  have hinv : tableInv emptyAnalyticsTable := by
    intro r hr
    exact absurd hr (List.not_mem_nil r)
  rw [runSave_rows (parseExcelFile wb) emptyAnalyticsTable hinv uid fid]
  simp [emptyAnalyticsTable, parseExcelFile_summaries]

/-- Claim C6, counterexample: handling an accepted file is not a single
backend call — the success path of `onDrop` issues two (the storage
upload, then the metadata insert). -/
theorem C6_counterexample : countIssued (onDropEvents true true true true) ≠ 1 := by
  decide

/-- Claim C6, amended: for every accepted file the storage upload itself
is exactly one backend call, and the accepted-file flow issues two
backend calls in total when the upload succeeds (upload then metadata
insert) and one when it fails. -/
theorem C6_amended :
    ∀ uploadOk dbOk : Bool,
      countIssueOf .storageUpload (onDropEvents true true uploadOk dbOk) = 1
      ∧ countIssued (onDropEvents true true uploadOk dbOk) =
          (if uploadOk then 2 else 1) := by
  decide

/-- Claim C7: the chart-configuration export is exactly the object with
the six fields fileName, chartType, xAxis, yAxis, data, generatedAt,
where data is the currently generated chart data (hence at most 20
entries) and chartType/xAxis/yAxis are the current selections. -/
theorem C7_chart_export (fn sel xA yA now : String) (rows : List JSObj) :
    downloadChartConfig fn sel xA yA (generateChartData xA yA rows) now =
      { fileName := fn, chartType := sel, xAxis := xA, yAxis := yA,
        data := generateChartData xA yA rows, generatedAt := now }
    ∧ (generateChartData xA yA rows).length ≤ 20 := by
  refine ⟨rfl, ?_⟩
  unfold generateChartData
  exact List.length_take_le _ _

/-- Claim C8: in `parseExcelFile`, a sheet whose `sheet_to_json` output
is empty is omitted entirely (the parsed sheet names are exactly those
of the non-empty sheets, in order); every value stored in a formatted
row is either a truthy raw cell or the empty string; any falsy cell —
including the number 0 and the boolean false — is replaced by the empty
string. -/
theorem C8_parse_behavior :
    (∀ wb : List (String × List (List JSValue)),
        (parseExcelFile wb).map (fun s => s.name) =
          (wb.filter (fun sd => !sd.2.isEmpty)).map (fun sd => sd.1))
    ∧ (∀ headers row : List JSValue,
        ((formatRow headers row).all
          (fun kv => jsTruthy kv.2 || (kv.2 == JSValue.vStr ""))) = true)
    ∧ (∀ (row : List JSValue) (i : ℕ), jsTruthy (jsIndex row i) = false →
        formatCell row i = JSValue.vStr "")
    ∧ formatRow [JSValue.vStr "A", JSValue.vStr "B"]
        [JSValue.vNum JsNum.zero, JSValue.vBool false] =
        [("A", JSValue.vStr ""), ("B", JSValue.vStr "")] := by
  refine ⟨parseExcelFile_names, formatRow_all, ?_, by decide⟩
  intro row i h
  simp [formatCell, jsOr, h]

/-- Witness for C8: the falsy-cell clause applied to a concrete cell
holding the number 0. -/
theorem C8_witness : formatCell [JSValue.vNum JsNum.zero] 0 = JSValue.vStr "" :=
  C8_parse_behavior.2.2.1 [JSValue.vNum JsNum.zero] 0 (by decide)

/-- Claim C9, counterexample: the `!isNaN` filter CAN remove a point.
With the y column literally named "name", the object literal's fixed
`name: row[xAxis]` key overwrites `item[yAxis]`, so `item[yAxis]` is the
raw x value (here the non-numeric string "a"), `isNaN` is true, and the
claim that every processed item passes the isNaN test is false. -/
theorem C9_counterexample :
    ¬ (∀ (xA yA : String) (data : List JSObj),
        ∀ item ∈ data.map (processRow xA yA), jsIsNaN (objGet item yA) = false) := by
  intro h
  have h2 := h "x" "name" [[("x", JSValue.vStr "a"), ("name", JSValue.vStr "b")]]
    (processRow "x" "name" [("x", JSValue.vStr "a"), ("name", JSValue.vStr "b")])
    (List.mem_map_of_mem _ (List.mem_singleton_self _))
  exact absurd h2 (by decide)

/-- Claim C9, amended: provided the x column is not named "value" and
the y column is not named "name" (otherwise the fixed name/value keys of
the object literal collide with the computed keys), every produced point
has a numeric, never-NaN y value (a `JsNum`, which may be `Infinity`:
`parseFloat("Infinity") || 0` keeps the infinity — see
`parseFloat_infinity_facts`), the `!isNaN` conjunct of the filter never
rejects a processed item, rows with a falsy x value are excluded, and
the chart data has at most 20 entries. -/
theorem C9_amended (xA yA : String) (hx : xA ≠ "value") (hy : yA ≠ "name")
    (data : List JSObj) :
    (∀ item ∈ generateChartData xA yA data, ∃ n : JsNum,
        objGet item yA = JSValue.vNum n)
    ∧ (∀ item ∈ data.map (processRow xA yA), jsIsNaN (objGet item yA) = false)
    ∧ (∀ row ∈ data, jsTruthy (objGet row xA) = false →
        chartFilterPred xA yA (processRow xA yA row) = false)
    ∧ (generateChartData xA yA data).length ≤ 20 := by
  refine ⟨?_, ?_, ?_, ?_⟩
  · intro item hitem
    have h1 : item ∈ (data.map (processRow xA yA)).filter (chartFilterPred xA yA) :=
      List.take_subset _ _ hitem
    have h2 : item ∈ data.map (processRow xA yA) := List.mem_of_mem_filter h1
    obtain ⟨row, hrow, rfl⟩ := List.mem_map.mp h2
    exact ⟨_, objGet_processRow_y xA yA row hy⟩
  · intro item hitem
    obtain ⟨row, hrow, rfl⟩ := List.mem_map.mp hitem
    rw [objGet_processRow_y xA yA row hy]
    rfl
  · intro row hrow hfalsy
    unfold chartFilterPred
    rw [objGet_processRow_x xA yA row hx hy]
    by_cases hxy : xA = yA
    · rw [if_pos hxy]
      rw [hxy] at hfalsy
      simp [parseFloatOr0_of_falsy _ hfalsy]
    · rw [if_neg hxy]
      simp [hfalsy]
  · unfold generateChartData
    exact List.length_take_le _ _

/-- Witness for C9: the amended theorem at concrete axes "x"/"y" and a
concrete row with falsy x, showing the filter rejects it. -/
theorem C9_witness :
    chartFilterPred "x" "y"
        (processRow "x" "y" [("x", JSValue.vStr ""), ("y", JSValue.vStr "7")]) =
      false := by
  have h := C9_amended "x" "y" (by decide) (by decide)
    [[("x", JSValue.vStr ""), ("y", JSValue.vStr "7")]]
  exact h.2.2.1 _ (List.mem_singleton_self _) (by decide)

/-- Claim C10: `handleDelete` issues the metadata delete only after the
storage removal completes successfully; if the storage removal fails the
backend state (in particular the `excel_files` row) is untouched; if the
metadata delete fails the storage object has already been removed — it
is absent from storage — and the metadata row remains. -/
theorem C10_delete_order :
    (∀ sOk dOk : Bool, removedBeforeDelete (handleDeleteEvents true sOk dOk) = true)
    ∧ (∀ (st : BackendState) (uid : String) (f : FileRow) (dOk : Bool),
        handleDeleteRun st uid f false dOk = st)
    ∧ (∀ (st : BackendState) (uid : String) (f : FileRow),
        (handleDeleteRun st uid f true false).storage =
          (removeStorage st f.file_path).storage
        ∧ f.file_path ∉ (handleDeleteRun st uid f true false).storage
        ∧ (handleDeleteRun st uid f true false).dbFiles = st.dbFiles) := by
  refine ⟨by decide, ?_, ?_⟩
  · intro st uid f dOk
    rfl
  · intro st uid f
    refine ⟨rfl, ?_, rfl⟩
    simp [handleDeleteRun, removeStorage, List.mem_filter]
